import Mathlib

/-!
# The `fly_app` resource of terraform-provider-fly

A shallow embedding of `internal/provider/app_resource.go`: the state mapper
`appDataFromGraphql` and the lifecycle entry points `Create`, `Read`, `Update`
and `Delete` of `flyAppResource`.

The mutable response object of the plugin framework is threaded explicitly:
every entry point returns the diagnostics it leaves in the response, the
state it leaves in the response and the remote calls it made, in order.
-/

namespace FlyApp

/-! ## Framework values -/

/-- The framework's `types.String`: a struct with the two flags `Unknown` and
`Null` and the Go string `Value`. The Go zero value is `⟨false, false, ""⟩`. -/
structure TfString where
  Unknown : Bool
  Null : Bool
  Value : String
deriving DecidableEq, Repr

/-- The Go composite literal `types.String{Value: v}`: both flags keep their
zero value. -/
def TfString.ofValue (v : String) : TfString := ⟨false, false, v⟩

/-- The Go zero value of `types.String`, what a struct field that a composite
literal does not mention holds. -/
def TfString.zero : TfString := ⟨false, false, ""⟩

/-- A proper value in the framework's three-way reading of a `types.String`
(unknown, null, or a known value): neither flag is set. -/
def TfString.IsKnownValue (s : TfString) : Prop := s.Unknown = false ∧ s.Null = false

instance (s : TfString) : Decidable s.IsKnownValue := by
  unfold TfString.IsKnownValue; infer_instance

/-- The struct `flyAppResourceData` (lines 22-31), field for field. -/
structure flyAppResourceData where
  Id : TfString
  Name : TfString
  Org : TfString
  OrgId : TfString
  AppUrl : TfString
  Hostname : TfString
  SharedIpAddress : TfString
deriving DecidableEq, Repr

/-- Modelled from the spec: the `organization` member of `graphql.AppFragment`
(the generated `graphql` package is not among the sources); the spec lists it
as `organization{slug, id}`. -/
structure AppFragmentOrganization where
  Slug : String
  Id : String
deriving DecidableEq, Repr

/-- Modelled from the spec: the type `graphql.AppFragment` (the generated
`graphql` package is not among the sources). The spec gives the payload as
`RemoteApplication` with fields id, name, organization{slug, id},
applicationUrl, hostname, sharedIpAddress. -/
structure AppFragment where
  Id : String
  Name : String
  Organization : AppFragmentOrganization
  AppUrl : String
  Hostname : String
  SharedIpAddress : String
deriving DecidableEq, Repr

/-- The Go zero value of `graphql.AppFragment`: every string is empty. -/
def AppFragment.zero : AppFragment := ⟨"", "", ⟨"", ""⟩, "", "", ""⟩

/-- The function `appDataFromGraphql` (lines 33-41). The composite literal
names `Name`, `Org`, `OrgId`, `AppUrl` and `Id`; `Hostname` and
`SharedIpAddress` are not mentioned and keep the zero value. -/
def appDataFromGraphql (f : AppFragment) : flyAppResourceData :=
  { Name := TfString.ofValue f.Name
    Org := TfString.ofValue f.Organization.Slug
    OrgId := TfString.ofValue f.Organization.Id
    AppUrl := TfString.ofValue f.AppUrl
    Id := TfString.ofValue f.Id
    Hostname := TfString.zero
    SharedIpAddress := TfString.zero }

/-! ## Diagnostics -/

/-- Severity of a diagnostic. -/
inductive Severity where
  | error
  | warning
deriving DecidableEq, Repr

/-- One diagnostic of the framework's `diag.Diagnostics`. -/
structure Diagnostic where
  severity : Severity
  summary : String
  detail : String
deriving DecidableEq, Repr

/-- The framework's `diag.Diagnostics`, an ordered collection. -/
abbrev Diagnostics := List Diagnostic

/-- The method `Diagnostics.HasError`: some entry has severity error. -/
def HasError (ds : Diagnostics) : Bool := ds.any fun d => d.severity == Severity.error

/-- The error entries of a collection, in order. -/
def errorsOf (ds : Diagnostics) : Diagnostics := ds.filter fun d => d.severity == Severity.error

/-- One step of `Diagnostics.Append`: an entry the collection already
contains is skipped, any other is added at the end. -/
def appendOne (ds : Diagnostics) (d : Diagnostic) : Diagnostics :=
  if d ∈ ds then ds else ds ++ [d]

/-- The method `Diagnostics.Append(in...)`: adds the non-duplicate entries of
`in`, in order. -/
def Append (ds : Diagnostics) (input : Diagnostics) : Diagnostics :=
  input.foldl appendOne ds

/-- The method `Diagnostics.AddError(summary, detail)`: appends a new error
diagnostic through `Append`. -/
def AddError (ds : Diagnostics) (summary detail : String) : Diagnostics :=
  appendOne ds ⟨Severity.error, summary, detail⟩

/-! ## Remote errors and the GraphQL client -/

/-- One entry of a `gqlerror.List`: its `Message` and the rendering
`Path.String()` of its path, the two things the provider reads. -/
structure GqlError where
  Message : String
  Path : String
deriving DecidableEq, Repr

/-- A non-nil Go `error` as the provider observes it: `Text` is what
`err.Error()` returns and `AsList` is the outcome of
`errors.As(err, &errList)`, the entries when the error is a `gqlerror.List`
and `none` when it is not. -/
structure GoError where
  Text : String
  AsList : Option (List GqlError)
deriving DecidableEq, Repr

/-- The organization `utils.GetDefaultOrg` returns; the provider reads `Id`
and `Name`. -/
structure DefaultOrg where
  Id : String
  Name : String
deriving DecidableEq, Repr

/-- The remote operations behind `r.gqlClient`, one field per call the
resource makes. `GetDefaultOrg`, `Organization` (its result is
`org.Organization.Id`) and `CreateAppMutation` are only used when `err` is
nil, so they are an `Except`; `GetApp` returns the payload `query.App` next to
the error, because `Read` uses the payload whatever the error;
`DeleteAppMutation` only contributes its error. -/
structure GqlClient where
  GetDefaultOrg : Except GoError DefaultOrg
  Organization : String → Except GoError String
  CreateAppMutation : String → String → Except GoError AppFragment
  GetApp : String → AppFragment × Option GoError
  DeleteAppMutation : String → Option GoError

/-- A remote call with its arguments. -/
inductive RemoteCall where
  | getDefaultOrg
  | organization (slug : String)
  | createApp (name : String) (orgId : String)
  | getApp (name : String)
  | deleteApp (name : String)
deriving DecidableEq, Repr

/-- Whether the client answers the call with an error. -/
def GqlClient.fails (r : GqlClient) : RemoteCall → Bool
  | RemoteCall.getDefaultOrg =>
    match r.GetDefaultOrg with
    | Except.error _ => true
    | Except.ok _ => false
  | RemoteCall.organization slug =>
    match r.Organization slug with
    | Except.error _ => true
    | Except.ok _ => false
  | RemoteCall.createApp name orgId =>
    match r.CreateAppMutation name orgId with
    | Except.error _ => true
    | Except.ok _ => false
  | RemoteCall.getApp name => (r.GetApp name).2.isSome
  | RemoteCall.deleteApp name => (r.DeleteAppMutation name).isSome

/-- The call is `utils.GetDefaultOrg`. -/
def RemoteCall.isDefaultOrg : RemoteCall → Bool
  | RemoteCall.getDefaultOrg => true
  | _ => false

/-- The call is `graphql.Organization`. -/
def RemoteCall.isOrganization : RemoteCall → Bool
  | RemoteCall.organization _ => true
  | _ => false

/-- What an entry point leaves behind: the diagnostics and the state of the
response (`none` is the absent state: never set, or removed), and the remote
calls made, in order. -/
structure Run where
  Diagnostics : Diagnostics
  State : Option flyAppResourceData
  Calls : List RemoteCall
deriving DecidableEq, Repr

/-- The sentinel message `Read` compares every entry against (line 190). -/
def notFoundMessage : String := "Could not resolve "

/-! ## Create (lines 113-174) -/

/-- Lines 123-138 of `Create`: the organization is resolved into `data`.
On failure the summary and detail of the one `AddError` are returned. The
calls made are returned in both cases. -/
def Create.resolveOrg (r : GqlClient) (data : flyAppResourceData) :
    List RemoteCall × Except (String × String) flyAppResourceData :=
  if data.Org.Unknown then
    match r.GetDefaultOrg with
    | Except.error err =>
      ([RemoteCall.getDefaultOrg],
        Except.error ("Could not detect default organization", err.Text))
    | Except.ok defaultOrg =>
      ([RemoteCall.getDefaultOrg],
        Except.ok { data with
          OrgId := { data.OrgId with Value := defaultOrg.Id }
          Org := { data.Org with Value := defaultOrg.Name } })
  else
    match r.Organization data.Org.Value with
    | Except.error err =>
      ([RemoteCall.organization data.Org.Value],
        Except.error ("Could not resolve organization", err.Text))
    | Except.ok orgId =>
      ([RemoteCall.organization data.Org.Value],
        Except.ok { data with OrgId := { data.OrgId with Value := orgId } })

/-- The method `flyAppResource.Create`. `plan` and `planDiags` are what
`req.Plan.Get` decodes and reports, `st0` is the state the response starts
with. `resp.State.Set` of the struct stores it and reports nothing. -/
def Create (r : GqlClient) (plan : flyAppResourceData) (planDiags : Diagnostics)
    (st0 : Option flyAppResourceData) : Run :=
  let diags := Append [] planDiags
  if HasError diags then ⟨diags, st0, []⟩
  else
    match Create.resolveOrg r plan with
    | (calls, Except.error (summary, detail)) => ⟨AddError diags summary detail, st0, calls⟩
    | (calls, Except.ok data) =>
      let call := RemoteCall.createApp data.Name.Value data.OrgId.Value
      match r.CreateAppMutation data.Name.Value data.OrgId.Value with
      | Except.error err =>
        ⟨AddError diags "Create app failed" err.Text, st0, calls ++ [call]⟩
      | Except.ok app =>
        ⟨diags, some (appDataFromGraphql app), calls ++ [call]⟩

/-! ## Read (lines 176-210) -/

/-- The loop of lines 189-194 of `Read` over the entries of the error list:
an entry carrying the sentinel message makes `Read` return at once (the flag
is `true`, the diagnostics are those collected so far); any other entry is
added as an error diagnostic. -/
def Read.scan : List GqlError → Diagnostics → Diagnostics × Bool
  | [], ds => (ds, false)
  | e :: es, ds =>
    if e.Message = notFoundMessage then (ds, true)
    else Read.scan es (AddError ds e.Message e.Path)

/-- The method `flyAppResource.Read`. `state` and `getDiags` are what
`req.State.Get` decodes and reports, `st0` is the state the response starts
with (the framework hands over the prior state). -/
def Read (r : GqlClient) (state : flyAppResourceData) (getDiags : Diagnostics)
    (st0 : Option flyAppResourceData) : Run :=
  let diags := Append [] getDiags
  if HasError diags then ⟨diags, st0, []⟩
  else
    let query := r.GetApp state.Name.Value
    let calls : List RemoteCall := [RemoteCall.getApp state.Name.Value]
    let data := appDataFromGraphql query.1
    match query.2 with
    | some err =>
      match err.AsList with
      | some errList =>
        match Read.scan errList diags with
        | (ds, true) => ⟨ds, st0, calls⟩
        | (ds, false) => ⟨ds, some data, calls⟩
      | none => ⟨AddError diags "Read: query failed" err.Text, some data, calls⟩
    | none => ⟨diags, some data, calls⟩

/-! ## Update (lines 212-262) -/

/-- The diagnostic of line 229. -/
def orgMutationDiag (state plan : flyAppResourceData) : Diagnostic :=
  ⟨Severity.error, "Can't mutate org of existing app",
    "Can't switch org" ++ state.Org.Value ++ " to " ++ plan.Org.Value⟩

/-- The diagnostic of line 232. -/
def nameMutationDiag (state plan : flyAppResourceData) : Diagnostic :=
  ⟨Severity.error, "Can't mutate Name of existing app",
    "Can't switch name " ++ state.Name.Value ++ " to " ++ plan.Name.Value⟩

/-- The guard of line 228. -/
def Update.orgGuard (plan state : flyAppResourceData) : Bool :=
  !plan.Org.Unknown && plan.Org.Value != state.Org.Value

/-- The guard of line 231. -/
def Update.nameGuard (plan state : flyAppResourceData) : Bool :=
  !plan.Name.Null && plan.Name.Value != state.Name.Value

/-- The method `flyAppResource.Update`. `plan` and `planDiags` are what
`req.Plan.Get` decodes and reports, `state` and `stateDiags` what
`resp.State.Get` does, `st0` is the state the response starts with. The
method makes no remote call. -/
def Update (plan : flyAppResourceData) (planDiags : Diagnostics)
    (state : flyAppResourceData) (stateDiags : Diagnostics)
    (st0 : Option flyAppResourceData) : Run :=
  let diags := Append [] planDiags
  if HasError diags then ⟨diags, st0, []⟩
  else
    let diags := Append diags stateDiags
    let diags :=
      if Update.orgGuard plan state then
        AddError diags "Can't mutate org of existing app"
          ("Can't switch org" ++ state.Org.Value ++ " to " ++ plan.Org.Value)
      else diags
    let diags :=
      if Update.nameGuard plan state then
        AddError diags "Can't mutate Name of existing app"
          ("Can't switch name " ++ state.Name.Value ++ " to " ++ plan.Name.Value)
      else diags
    ⟨diags, some state, []⟩

/-! ## Delete (lines 264-285) -/

/-- The loop of lines 273-275 of `Delete`: every entry becomes an error
diagnostic. -/
def Delete.report (errList : List GqlError) (ds : Diagnostics) : Diagnostics :=
  errList.foldl (fun acc e => AddError acc e.Message e.Path) ds

/-- The method `flyAppResource.Delete`. `data` and `getDiags` are what
`req.State.Get` decodes and reports; the method does not test them.
`resp.State.RemoveResource` leaves the absent state. -/
def Delete (r : GqlClient) (data : flyAppResourceData) (getDiags : Diagnostics)
    (_st0 : Option flyAppResourceData) : Run :=
  let diags := Append [] getDiags
  let err := r.DeleteAppMutation data.Name.Value
  let diags :=
    match err with
    | some e =>
      match e.AsList with
      | some errList => Delete.report errList diags
      | none => AddError diags "Delete app failed" e.Text
    | none => diags
  ⟨diags, none, [RemoteCall.deleteApp data.Name.Value]⟩

/-! ## Concrete inputs -/

/-- The payload of the spec's Create scenario. -/
def demoApp : AppFragment :=
  ⟨"app_123", "demo-app", ⟨"acme", "org_1"⟩, "demo-app.example", "demo-app.fly.dev", ""⟩

/-- A payload whose shared address is set. -/
def demoAppShared : AppFragment :=
  ⟨"app_123", "demo-app", ⟨"acme", "org_1"⟩, "demo-app.example", "demo-app.fly.dev", "66.241.124.1"⟩

/-- The organization of the spec's Create scenario. -/
def demoOrg : DefaultOrg := ⟨"org_1", "acme"⟩

/-- A transport-level error: it does not decompose into a list. -/
def plainError : GoError := ⟨"connection refused", none⟩

/-- A client every call of which succeeds. -/
def okClient : GqlClient :=
  { GetDefaultOrg := Except.ok demoOrg
    Organization := fun _ => Except.ok "org_1"
    CreateAppMutation := fun _ _ => Except.ok demoApp
    GetApp := fun _ => (demoApp, none)
    DeleteAppMutation := fun _ => none }

/-- A configuration that names the application and leaves the organization
unresolved. -/
def demoPlanUnknownOrg : flyAppResourceData :=
  { Id := ⟨true, false, ""⟩
    Name := TfString.ofValue "demo-app"
    Org := ⟨true, false, ""⟩
    OrgId := ⟨true, false, ""⟩
    AppUrl := ⟨true, false, ""⟩
    Hostname := ⟨true, false, ""⟩
    SharedIpAddress := ⟨true, false, ""⟩ }

/-- The state of the existing application of the scenarios. -/
def demoState : flyAppResourceData :=
  { Id := TfString.ofValue "app_123"
    Name := TfString.ofValue "demo-app"
    Org := TfString.ofValue "acme"
    OrgId := TfString.ofValue "org_1"
    AppUrl := TfString.ofValue "demo-app.example"
    Hostname := TfString.zero
    SharedIpAddress := TfString.zero }

/-- A client whose default-organization lookup fails. -/
def noDefaultOrgClient : GqlClient := { okClient with GetDefaultOrg := Except.error plainError }

/-- A remote failure that is a list with the sentinel entry alone. -/
def notFoundError : GoError := ⟨"input: app Could not resolve ", some [⟨notFoundMessage, "app"⟩]⟩

/-- A client whose fetch fails with the sentinel entry alone. -/
def notFoundClient : GqlClient := { okClient with GetApp := fun _ => (AppFragment.zero, some notFoundError) }

/-- A remote failure that is a list: the sentinel entry first, another entry
after it. -/
def notFoundThenOther : GoError :=
  ⟨"two errors", some [⟨notFoundMessage, "app"⟩, ⟨"rate limited", "app.organization"⟩]⟩

/-- A remote failure that is a list without entries. -/
def emptyListError : GoError := ⟨"", some []⟩

/-- A remote failure that is a list with one entry, not the sentinel. -/
def rateLimitedError : GoError := ⟨"input: app rate limited", some [⟨"rate limited", "app"⟩]⟩

/-- A plan for the existing application whose name is unknown. -/
def unknownNamePlan : flyAppResourceData := { demoState with Name := ⟨true, false, ""⟩ }

/-- A plan for the existing application that changes both guarded fields. -/
def renamedMovedPlan : flyAppResourceData :=
  { demoState with Name := TfString.ofValue "other-app", Org := TfString.ofValue "other-org" }

/-- A client whose fetch fails with the sentinel entry followed by another
entry. -/
def notFoundThenOtherClient : GqlClient :=
  { okClient with GetApp := fun _ => (AppFragment.zero, some notFoundThenOther) }

/-- The same two entries in the other order. -/
def otherThenNotFound : GoError :=
  ⟨"two errors", some [⟨"rate limited", "app.organization"⟩, ⟨notFoundMessage, "app"⟩]⟩

/-- A client whose fetch fails with the other entry followed by the sentinel
entry. -/
def otherThenNotFoundClient : GqlClient :=
  { okClient with GetApp := fun _ => (AppFragment.zero, some otherThenNotFound) }

/-- A client whose fetch fails with a list without entries. -/
def emptyListClient : GqlClient :=
  { okClient with GetApp := fun _ => (AppFragment.zero, some emptyListError) }

/-- A client whose fetch fails with one entry that is not the sentinel, and
returns the zero payload with it. -/
def rateLimitedClient : GqlClient :=
  { okClient with GetApp := fun _ => (AppFragment.zero, some rateLimitedError) }

/-- A client whose create-application call returns the payload with a shared
address. -/
def sharedClient : GqlClient := { okClient with CreateAppMutation := fun _ _ => Except.ok demoAppShared }

/-- The state every field of which is the known empty string. -/
def emptyState : flyAppResourceData :=
  { Id := TfString.ofValue ""
    Name := TfString.ofValue ""
    Org := TfString.ofValue ""
    OrgId := TfString.ofValue ""
    AppUrl := TfString.ofValue ""
    Hostname := TfString.ofValue ""
    SharedIpAddress := TfString.ofValue "" }

/-- The error diagnostic an entry of a remote error list is reported as:
summary is the message, detail is the path. -/
def entryDiag (e : GqlError) : Diagnostic := ⟨Severity.error, e.Message, e.Path⟩

/-! ## Diagnostics: lemmas -/

theorem mem_appendOne (ds : Diagnostics) (d x : Diagnostic) :
    x ∈ appendOne ds d ↔ x ∈ ds ∨ x = d := by
  unfold appendOne
  by_cases h : d ∈ ds
  · rw [if_pos h]
    constructor
    · intro hx; exact Or.inl hx
    · rintro (hx | hx)
      · exact hx
      · rw [hx]; exact h
  · rw [if_neg h]; simp

theorem appendOne_of_not_mem (ds : Diagnostics) (d : Diagnostic) (h : d ∉ ds) :
    appendOne ds d = ds ++ [d] := by
  unfold appendOne; rw [if_neg h]

theorem mem_Append (input ds : Diagnostics) (x : Diagnostic) :
    x ∈ Append ds input ↔ x ∈ ds ∨ x ∈ input := by
  induction input generalizing ds with
  | nil => simp [Append]
  | cons d rest ih =>
    have h := ih (appendOne ds d)
    unfold Append at h ⊢
    rw [List.foldl_cons, h, mem_appendOne]
    simp only [List.mem_cons]
    tauto

theorem HasError_eq_false_iff (ds : Diagnostics) :
    HasError ds = false ↔ ∀ d ∈ ds, d.severity ≠ Severity.error := by
  unfold HasError
  rw [List.any_eq_false]
  constructor
  · intro h d hd hs
    exact h d hd (by simp [hs])
  · intro h d hd
    have := h d hd
    simpa using this

theorem errorsOf_eq_nil (ds : Diagnostics) (h : HasError ds = false) : errorsOf ds = [] := by
  rw [HasError_eq_false_iff] at h
  unfold errorsOf
  rw [List.filter_eq_nil_iff]
  intro d hd
  simpa using h d hd

theorem error_not_mem (ds : Diagnostics) (h : HasError ds = false) (summary detail : String) :
    (⟨Severity.error, summary, detail⟩ : Diagnostic) ∉ ds := by
  rw [HasError_eq_false_iff] at h
  intro hm
  exact h _ hm rfl

theorem HasError_Append (input ds : Diagnostics) (h1 : HasError ds = false)
    (h2 : HasError input = false) : HasError (Append ds input) = false := by
  rw [HasError_eq_false_iff] at h1 h2 ⊢
  intro d hd
  rcases (mem_Append input ds d).1 hd with h | h
  · exact h1 d h
  · exact h2 d h

theorem errorsOf_append (xs ys : Diagnostics) : errorsOf (xs ++ ys) = errorsOf xs ++ errorsOf ys := by
  unfold errorsOf; exact List.filter_append xs ys

theorem AddError_of_no_error (ds : Diagnostics) (h : HasError ds = false) (summary detail : String) :
    AddError ds summary detail = ds ++ [⟨Severity.error, summary, detail⟩] :=
  appendOne_of_not_mem ds _ (error_not_mem ds h summary detail)

theorem errorsOf_AddError (ds : Diagnostics) (h : HasError ds = false) (summary detail : String) :
    errorsOf (AddError ds summary detail) = [⟨Severity.error, summary, detail⟩] := by
  rw [AddError_of_no_error ds h, errorsOf_append, errorsOf_eq_nil ds h]
  rfl

/-! ## The loops over a remote error list -/

theorem mem_report (errList : List GqlError) (ds : Diagnostics) (x : Diagnostic) :
    x ∈ Delete.report errList ds ↔ x ∈ ds ∨ ∃ e ∈ errList, x = entryDiag e := by
  induction errList generalizing ds with
  | nil => simp [Delete.report]
  | cons e rest ih =>
    have h := ih (AddError ds e.Message e.Path)
    unfold Delete.report at h ⊢
    rw [List.foldl_cons, h]
    unfold AddError
    rw [mem_appendOne]
    simp only [List.mem_cons, exists_eq_or_imp, entryDiag]
    tauto

theorem scan_of_no_sentinel (errList : List GqlError) (ds : Diagnostics)
    (h : ∀ e ∈ errList, e.Message ≠ notFoundMessage) :
    Read.scan errList ds = (Delete.report errList ds, false) := by
  induction errList generalizing ds with
  | nil => rfl
  | cons e rest ih =>
    have he : e.Message ≠ notFoundMessage := h e (List.mem_cons_self e rest)
    have hr : ∀ x ∈ rest, x.Message ≠ notFoundMessage :=
      fun x hx => h x (List.mem_cons_of_mem e hx)
    unfold Read.scan
    rw [if_neg he, ih _ hr]
    rfl

theorem HasError_of_mem (ds : Diagnostics) (d : Diagnostic) (hd : d ∈ ds)
    (hs : d.severity = Severity.error) : HasError ds = true := by
  unfold HasError
  rw [List.any_eq_true]
  exact ⟨d, hd, by simp [hs]⟩

/-! ## The state mapper -/

/-- C1, at the payload of the spec's Create scenario and at one with a shared
address: the state a successful Create persists holds the empty string as
hostname and as shared address, whatever the payload holds there; the state
mapper leaves both fields at their zero value for every payload. -/
theorem create_scenario_drops_hostname :
    demoApp.Hostname = "demo-app.fly.dev" ∧
    (Create okClient demoPlanUnknownOrg [] none).Diagnostics = [] ∧
    (Create okClient demoPlanUnknownOrg [] none).State = some (appDataFromGraphql demoApp) ∧
    (appDataFromGraphql demoApp).Hostname.Value = "" ∧
    demoAppShared.SharedIpAddress = "66.241.124.1" ∧
    (Create sharedClient demoPlanUnknownOrg [] none).State = some (appDataFromGraphql demoAppShared) ∧
    (appDataFromGraphql demoAppShared).SharedIpAddress.Value = "" ∧
    (∀ f : AppFragment, (appDataFromGraphql f).Hostname = TfString.zero ∧
      (appDataFromGraphql f).SharedIpAddress = TfString.zero) := by
  refine ⟨rfl, rfl, rfl, rfl, rfl, rfl, rfl, fun f => ⟨rfl, rfl⟩⟩

/-! ## Create -/

/-- C4: when a remote call that `Create` makes is answered with an error
(default-organization lookup, named-organization lookup or create-application),
the response holds exactly one error diagnostic, its state is the one it
started with, and the failing call is the last call made: every call before
it succeeded and none follows it. -/
theorem create_failure_stops (r : GqlClient) (plan : flyAppResourceData)
    (planDiags : Diagnostics) (st0 : Option flyAppResourceData) (c : RemoteCall)
    (hc : c ∈ (Create r plan planDiags st0).Calls) (hf : r.fails c = true) :
    (errorsOf (Create r plan planDiags st0).Diagnostics).length = 1 ∧
    (Create r plan planDiags st0).State = st0 ∧
    ∃ pre, (Create r plan planDiags st0).Calls = pre ++ [c] ∧ ∀ x ∈ pre, r.fails x = false := by
  by_cases hE : HasError (Append [] planDiags) = true
  · have hrun : Create r plan planDiags st0 = ⟨Append [] planDiags, st0, []⟩ := by
      simp [Create, hE]
    rw [hrun] at hc
    cases hc
  · have hE0 : HasError (Append [] planDiags) = false := by simpa using hE
    by_cases hU : plan.Org.Unknown = true
    · cases hD : r.GetDefaultOrg with
      | error err =>
        have hrun : Create r plan planDiags st0 =
            ⟨AddError (Append [] planDiags) "Could not detect default organization" err.Text,
              st0, [RemoteCall.getDefaultOrg]⟩ := by
          simp [Create, Create.resolveOrg, hE0, hU, hD]
        rw [hrun] at hc ⊢
        have hceq : c = RemoteCall.getDefaultOrg := by simpa using hc
        subst hceq
        refine ⟨?_, rfl, [], rfl, ?_⟩
        · simp only []
          rw [errorsOf_AddError _ hE0]
          rfl
        · intro x hx; cases hx
      | ok org =>
        have hfd : r.fails RemoteCall.getDefaultOrg = false := by
          simp [GqlClient.fails, hD]
        cases hC : r.CreateAppMutation plan.Name.Value org.Id with
        | error err =>
          have hrun : Create r plan planDiags st0 =
              ⟨AddError (Append [] planDiags) "Create app failed" err.Text, st0,
                [RemoteCall.getDefaultOrg, RemoteCall.createApp plan.Name.Value org.Id]⟩ := by
            simp [Create, Create.resolveOrg, hE0, hU, hD, hC]
          rw [hrun] at hc ⊢
          have hceq : c = RemoteCall.getDefaultOrg ∨
              c = RemoteCall.createApp plan.Name.Value org.Id := by simpa using hc
          rcases hceq with h | h
          · rw [h, hfd] at hf; cases hf
          · subst h
            refine ⟨?_, rfl, [RemoteCall.getDefaultOrg], rfl, ?_⟩
            · simp only []
              rw [errorsOf_AddError _ hE0]
              rfl
            · intro x hx
              have hx1 : x = RemoteCall.getDefaultOrg := by simpa using hx
              rw [hx1]; exact hfd
        | ok app =>
          have hfc : r.fails (RemoteCall.createApp plan.Name.Value org.Id) = false := by
            simp [GqlClient.fails, hC]
          have hrun : Create r plan planDiags st0 =
              ⟨Append [] planDiags, some (appDataFromGraphql app),
                [RemoteCall.getDefaultOrg, RemoteCall.createApp plan.Name.Value org.Id]⟩ := by
            simp [Create, Create.resolveOrg, hE0, hU, hD, hC]
          rw [hrun] at hc
          have hceq : c = RemoteCall.getDefaultOrg ∨
              c = RemoteCall.createApp plan.Name.Value org.Id := by simpa using hc
          rcases hceq with h | h
          · rw [h, hfd] at hf; cases hf
          · rw [h, hfc] at hf; cases hf
    · have hU0 : plan.Org.Unknown = false := by simpa using hU
      cases hD : r.Organization plan.Org.Value with
      | error err =>
        have hrun : Create r plan planDiags st0 =
            ⟨AddError (Append [] planDiags) "Could not resolve organization" err.Text,
              st0, [RemoteCall.organization plan.Org.Value]⟩ := by
          simp [Create, Create.resolveOrg, hE0, hU0, hD]
        rw [hrun] at hc ⊢
        have hceq : c = RemoteCall.organization plan.Org.Value := by simpa using hc
        subst hceq
        refine ⟨?_, rfl, [], rfl, ?_⟩
        · simp only []
          rw [errorsOf_AddError _ hE0]
          rfl
        · intro x hx; cases hx
      | ok orgId =>
        have hfd : r.fails (RemoteCall.organization plan.Org.Value) = false := by
          simp [GqlClient.fails, hD]
        cases hC : r.CreateAppMutation plan.Name.Value orgId with
        | error err =>
          have hrun : Create r plan planDiags st0 =
              ⟨AddError (Append [] planDiags) "Create app failed" err.Text, st0,
                [RemoteCall.organization plan.Org.Value,
                  RemoteCall.createApp plan.Name.Value orgId]⟩ := by
            simp [Create, Create.resolveOrg, hE0, hU0, hD, hC]
          rw [hrun] at hc ⊢
          have hceq : c = RemoteCall.organization plan.Org.Value ∨
              c = RemoteCall.createApp plan.Name.Value orgId := by simpa using hc
          rcases hceq with h | h
          · rw [h, hfd] at hf; cases hf
          · subst h
            refine ⟨?_, rfl, [RemoteCall.organization plan.Org.Value], rfl, ?_⟩
            · simp only []
              rw [errorsOf_AddError _ hE0]
              rfl
            · intro x hx
              have hx1 : x = RemoteCall.organization plan.Org.Value := by simpa using hx
              rw [hx1]; exact hfd
        | ok app =>
          have hfc : r.fails (RemoteCall.createApp plan.Name.Value orgId) = false := by
            simp [GqlClient.fails, hC]
          have hrun : Create r plan planDiags st0 =
              ⟨Append [] planDiags, some (appDataFromGraphql app),
                [RemoteCall.organization plan.Org.Value,
                  RemoteCall.createApp plan.Name.Value orgId]⟩ := by
            simp [Create, Create.resolveOrg, hE0, hU0, hD, hC]
          rw [hrun] at hc
          have hceq : c = RemoteCall.organization plan.Org.Value ∨
              c = RemoteCall.createApp plan.Name.Value orgId := by simpa using hc
          rcases hceq with h | h
          · rw [h, hfd] at hf; cases hf
          · rw [h, hfc] at hf; cases hf

theorem create_failure_stops_witness :
    (errorsOf (Create noDefaultOrgClient demoPlanUnknownOrg [] none).Diagnostics).length = 1 ∧
    (Create noDefaultOrgClient demoPlanUnknownOrg [] none).State = none ∧
    ∃ pre, (Create noDefaultOrgClient demoPlanUnknownOrg [] none).Calls =
        pre ++ [RemoteCall.getDefaultOrg] ∧
      ∀ x ∈ pre, noDefaultOrgClient.fails x = false :=
  create_failure_stops noDefaultOrgClient demoPlanUnknownOrg [] none RemoteCall.getDefaultOrg
    (by decide) rfl

/-- C7: once the plan is decoded without error, `Create` calls the
default-organization lookup exactly once and the named-organization lookup
never when the plan's organization is unknown, and the other way round when
it is not (the named lookup gets the plan's organization). With the unknown
organization, the organization the lookup returns gives both values: its
`Id` becomes the organization id, the one passed to create-application next to
the plan's name, and its `Name` becomes the organization slug. -/
theorem create_resolves_organization_once (r : GqlClient) (plan : flyAppResourceData)
    (planDiags : Diagnostics) (st0 : Option flyAppResourceData)
    (hd : HasError (Append [] planDiags) = false) :
    (plan.Org.Unknown = true →
      (Create r plan planDiags st0).Calls.countP RemoteCall.isDefaultOrg = 1 ∧
      (Create r plan planDiags st0).Calls.countP RemoteCall.isOrganization = 0 ∧
      ∀ org, r.GetDefaultOrg = Except.ok org →
        (∃ data, (Create.resolveOrg r plan).2 = Except.ok data ∧
          data.OrgId.Value = org.Id ∧ data.Org.Value = org.Name) ∧
        (Create r plan planDiags st0).Calls =
          [RemoteCall.getDefaultOrg, RemoteCall.createApp plan.Name.Value org.Id]) ∧
    (plan.Org.Unknown = false →
      (Create r plan planDiags st0).Calls.countP RemoteCall.isDefaultOrg = 0 ∧
      (Create r plan planDiags st0).Calls.countP RemoteCall.isOrganization = 1 ∧
      (Create r plan planDiags st0).Calls.head? = some (RemoteCall.organization plan.Org.Value)) := by
  constructor
  · intro hU
    cases hD : r.GetDefaultOrg with
    | error err =>
      have hrun : (Create r plan planDiags st0).Calls = [RemoteCall.getDefaultOrg] := by
        simp [Create, Create.resolveOrg, hd, hU, hD]
      rw [hrun]
      refine ⟨rfl, rfl, ?_⟩
      intro org horg
      cases horg
    | ok org =>
      have hres : (Create.resolveOrg r plan).2 = Except.ok { plan with
          OrgId := { plan.OrgId with Value := org.Id }
          Org := { plan.Org with Value := org.Name } } := by
        simp [Create.resolveOrg, hU, hD]
      have hrun : (Create r plan planDiags st0).Calls =
          [RemoteCall.getDefaultOrg, RemoteCall.createApp plan.Name.Value org.Id] := by
        cases hC : r.CreateAppMutation plan.Name.Value org.Id <;>
          simp [Create, Create.resolveOrg, hd, hU, hD, hC]
      rw [hrun]
      refine ⟨rfl, rfl, ?_⟩
      intro org2 horg
      have hoo : org = org2 := by
        injection horg
      subst hoo
      exact ⟨⟨_, hres, rfl, rfl⟩, rfl⟩
  · intro hU
    cases hD : r.Organization plan.Org.Value with
    | error err =>
      have hrun : (Create r plan planDiags st0).Calls =
          [RemoteCall.organization plan.Org.Value] := by
        simp [Create, Create.resolveOrg, hd, hU, hD]
      rw [hrun]
      exact ⟨rfl, rfl, rfl⟩
    | ok orgId =>
      have hrun : (Create r plan planDiags st0).Calls =
          [RemoteCall.organization plan.Org.Value,
            RemoteCall.createApp plan.Name.Value orgId] := by
        cases hC : r.CreateAppMutation plan.Name.Value orgId <;>
          simp [Create, Create.resolveOrg, hd, hU, hD, hC]
      rw [hrun]
      exact ⟨rfl, rfl, rfl⟩

theorem create_resolves_organization_once_witness :
    (Create okClient demoPlanUnknownOrg [] none).Calls.countP RemoteCall.isDefaultOrg = 1 ∧
    (Create okClient demoPlanUnknownOrg [] none).Calls.countP RemoteCall.isOrganization = 0 ∧
    (Create okClient demoPlanUnknownOrg [] none).Calls =
      [RemoteCall.getDefaultOrg, RemoteCall.createApp "demo-app" "org_1"] ∧
    (Create okClient demoState [] none).Calls.countP RemoteCall.isDefaultOrg = 0 ∧
    (Create okClient demoState [] none).Calls.countP RemoteCall.isOrganization = 1 :=
  have h := (create_resolves_organization_once okClient demoPlanUnknownOrg [] none rfl).1 rfl
  have g := (create_resolves_organization_once okClient demoState [] none rfl).2 rfl
  ⟨h.1, h.2.1, (h.2.2 demoOrg rfl).2, g.1, g.2.1⟩

/-! ## Update -/

/-- C2, at a plan whose name is unknown: the name guard tests the `Null` flag,
not the `Unknown` flag as the organization guard does, so the unknown name is
compared by its empty `Value` and the name diagnostic is emitted. -/
theorem update_unknown_name_is_reported :
    unknownNamePlan.Name.Unknown = true ∧
    unknownNamePlan.Org = demoState.Org ∧
    (Update unknownNamePlan [] demoState [] (some demoState)).Diagnostics =
      [nameMutationDiag demoState unknownNamePlan] := by
  refine ⟨rfl, rfl, ?_⟩
  decide

/-- C8: when the plan's name equals the prior name and the plan's
organization is unknown or equals the prior organization slug, `Update` adds
no diagnostic to those of decoding, none at all when decoding reported none,
and sets the state to the prior state. -/
theorem update_unchanged_is_pass_through (plan state : flyAppResourceData)
    (st0 : Option flyAppResourceData)
    (hname : plan.Name.Value = state.Name.Value)
    (horg : plan.Org.Unknown = true ∨ plan.Org.Value = state.Org.Value) :
    Update plan [] state [] st0 = ⟨[], some state, []⟩ ∧
    ∀ planDiags stateDiags : Diagnostics, HasError (Append [] planDiags) = false →
      Update plan planDiags state stateDiags st0 =
        ⟨Append (Append [] planDiags) stateDiags, some state, []⟩ := by
  have hog : Update.orgGuard plan state = false := by
    unfold Update.orgGuard
    rcases horg with h | h
    · simp [h]
    · simp [h]
  have hng : Update.nameGuard plan state = false := by
    unfold Update.nameGuard
    simp [hname]
  have key : ∀ planDiags stateDiags : Diagnostics, HasError (Append [] planDiags) = false →
      Update plan planDiags state stateDiags st0 =
        ⟨Append (Append [] planDiags) stateDiags, some state, []⟩ := by
    intro pd sd hpd
    unfold Update
    simp [hpd, hog, hng]
  exact ⟨key [] [] rfl, key⟩

theorem update_unchanged_is_pass_through_witness :
    Update { demoState with Org := ⟨true, false, ""⟩ } [] demoState [] (some demoState) =
      ⟨[], some demoState, []⟩ :=
  (update_unchanged_is_pass_through { demoState with Org := ⟨true, false, ""⟩ } demoState
    (some demoState) rfl (Or.inl rfl)).1

/-- C9: when the plan's name is a known value (neither unknown nor null) that
differs from the prior name and the plan's organization is a known value that
differs from the prior organization slug, `Update` reports exactly two
diagnostics, the organization one first and the name one second; next to
diagnostics of decoding that hold no error, these two are its errors. -/
theorem update_two_violations_two_diagnostics (plan state : flyAppResourceData)
    (st0 : Option flyAppResourceData)
    (hn : plan.Name.IsKnownValue) (hnd : plan.Name.Value ≠ state.Name.Value)
    (ho : plan.Org.IsKnownValue) (hod : plan.Org.Value ≠ state.Org.Value) :
    (Update plan [] state [] st0).Diagnostics =
      [orgMutationDiag state plan, nameMutationDiag state plan] ∧
    (Update plan [] state [] st0).Diagnostics.length = 2 ∧
    ∀ planDiags stateDiags : Diagnostics, HasError (Append [] planDiags) = false →
      HasError stateDiags = false →
      errorsOf (Update plan planDiags state stateDiags st0).Diagnostics =
        [orgMutationDiag state plan, nameMutationDiag state plan] := by
  have hog : Update.orgGuard plan state = true := by
    unfold Update.orgGuard
    simp [ho.1, hod]
  have hng : Update.nameGuard plan state = true := by
    unfold Update.nameGuard
    simp [hn.2, hnd]
  have hne : nameMutationDiag state plan ≠ orgMutationDiag state plan := by
    intro h
    have hsum : "Can't mutate Name of existing app" = "Can't mutate org of existing app" :=
      congrArg Diagnostic.summary h
    exact absurd hsum (by decide)
  have key : ∀ planDiags stateDiags : Diagnostics, HasError (Append [] planDiags) = false →
      HasError stateDiags = false →
      (Update plan planDiags state stateDiags st0).Diagnostics =
        Append (Append [] planDiags) stateDiags ++
          [orgMutationDiag state plan, nameMutationDiag state plan] := by
    intro pd sd hpd hsd
    have hall : HasError (Append (Append [] pd) sd) = false := HasError_Append sd _ hpd hsd
    have h1 : AddError (Append (Append [] pd) sd) "Can't mutate org of existing app"
        ("Can't switch org" ++ state.Org.Value ++ " to " ++ plan.Org.Value) =
        Append (Append [] pd) sd ++ [orgMutationDiag state plan] :=
      AddError_of_no_error _ hall _ _
    have h2 : AddError (Append (Append [] pd) sd ++ [orgMutationDiag state plan])
        "Can't mutate Name of existing app"
        ("Can't switch name " ++ state.Name.Value ++ " to " ++ plan.Name.Value) =
        (Append (Append [] pd) sd ++ [orgMutationDiag state plan]) ++
          [nameMutationDiag state plan] := by
      apply appendOne_of_not_mem
      intro hm
      rcases List.mem_append.1 hm with h | h
      · exact error_not_mem _ hall _ _ h
      · exact hne (List.mem_singleton.1 h)
    unfold Update
    simp only [hpd, hog, hng, h1, if_true, Bool.false_eq_true, if_false, h2]
    simp
  refine ⟨?_, ?_, ?_⟩
  · have := key [] [] rfl rfl
    simpa [Append] using this
  · have := key [] [] rfl rfl
    rw [this]
    rfl
  · intro pd sd hpd hsd
    have hall : HasError (Append (Append [] pd) sd) = false := HasError_Append sd _ hpd hsd
    rw [key pd sd hpd hsd, errorsOf_append, errorsOf_eq_nil _ hall]
    rfl

theorem update_two_violations_two_diagnostics_witness :
    (Update renamedMovedPlan [] demoState [] (some demoState)).Diagnostics =
      [orgMutationDiag demoState renamedMovedPlan, nameMutationDiag demoState renamedMovedPlan] :=
  (update_two_violations_two_diagnostics renamedMovedPlan demoState (some demoState)
    ⟨rfl, rfl⟩ (by decide) ⟨rfl, rfl⟩ (by decide)).1

/-! ## Read -/

/-- C3, at a fetch failure whose list holds the sentinel entry first and
another entry after it: `Read` returns at the sentinel entry, and the entry
after it is not reported; with the two entries in the other order it is. -/
theorem read_entry_after_sentinel_is_dropped :
    notFoundThenOtherClient.GetApp demoState.Name.Value = (AppFragment.zero, some notFoundThenOther) ∧
    notFoundThenOther.AsList = some [⟨notFoundMessage, "app"⟩, ⟨"rate limited", "app.organization"⟩] ∧
    (Read notFoundThenOtherClient demoState [] (some demoState)).Diagnostics = [] ∧
    (Read otherThenNotFoundClient demoState [] (some demoState)).Diagnostics =
      [entryDiag ⟨"rate limited", "app.organization"⟩] := by
  refine ⟨rfl, rfl, ?_, ?_⟩ <;> decide

/-- C6: a fetch failure that is a list holding the sentinel entry and nothing
else leaves the response as it was: the state is the one it started with, the
diagnostics are those of decoding the request and no more, so none when the
decoding reported none. -/
theorem read_not_found_is_noop (r : GqlClient) (state : flyAppResourceData)
    (getDiags : Diagnostics) (st0 : Option flyAppResourceData) (payload : AppFragment)
    (err : GoError) (path : String)
    (hq : r.GetApp state.Name.Value = (payload, some err))
    (hl : err.AsList = some [⟨notFoundMessage, path⟩]) :
    (Read r state getDiags st0).State = st0 ∧
    (Read r state getDiags st0).Diagnostics = Append [] getDiags ∧
    (Read r state [] st0).Diagnostics = [] := by
  have key : ∀ gd : Diagnostics, (Read r state gd st0).State = st0 ∧
      (Read r state gd st0).Diagnostics = Append [] gd := by
    intro gd
    unfold Read
    by_cases hE : HasError (Append [] gd) = true
    · simp [hE]
    · simp [hE, hq, hl, Read.scan]
  exact ⟨(key getDiags).1, (key getDiags).2, (key []).2⟩

theorem read_not_found_is_noop_witness :
    (Read notFoundClient demoState [] (some demoState)).State = some demoState ∧
    (Read notFoundClient demoState [] (some demoState)).Diagnostics = Append [] [] ∧
    (Read notFoundClient demoState [] (some demoState)).Diagnostics = [] :=
  read_not_found_is_noop notFoundClient demoState [] (some demoState) AppFragment.zero
    notFoundError "app" rfl rfl

/-- C10 as stated fails at a fetch failure that is a list without entries: no
entry carries the sentinel, and `Read` reports no diagnostic. -/
theorem read_empty_list_reports_nothing :
    emptyListClient.GetApp demoState.Name.Value = (AppFragment.zero, some emptyListError) ∧
    emptyListError.AsList = some [] ∧
    (∀ e ∈ ([] : List GqlError), e.Message ≠ notFoundMessage) ∧
    (Read emptyListClient demoState [] (some demoState)).Diagnostics = [] ∧
    (Read emptyListClient demoState [] (some demoState)).State = some emptyState := by
  refine ⟨rfl, rfl, ?_, ?_, ?_⟩
  · intro e he; cases he
  · decide
  · decide

/-- C10, amended: when the fetch fails with an error that holds no sentinel
entry (one that does not decompose, or a list none of whose entries carries
the sentinel), `Read` sets the state to the state mapper applied to the
payload returned with the error, whatever the state was, and with the zero
payload every field is the empty string; it reports an error diagnostic
unless the error is a list without entries, and for a list without entries it
adds no diagnostic to those of decoding. -/
theorem read_failure_overwrites_state (r : GqlClient) (state : flyAppResourceData)
    (getDiags : Diagnostics) (st0 : Option flyAppResourceData) (payload : AppFragment)
    (err : GoError)
    (hd : HasError (Append [] getDiags) = false)
    (hq : r.GetApp state.Name.Value = (payload, some err))
    (hs : err.AsList = none ∨
      ∃ es, err.AsList = some es ∧ ∀ e ∈ es, e.Message ≠ notFoundMessage) :
    (Read r state getDiags st0).State = some (appDataFromGraphql payload) ∧
    (payload = AppFragment.zero → (Read r state getDiags st0).State = some emptyState) ∧
    (err.AsList ≠ some [] → HasError (Read r state getDiags st0).Diagnostics = true) ∧
    (err.AsList = some [] → (Read r state getDiags st0).Diagnostics = Append [] getDiags) := by
  have hst : (Read r state getDiags st0).State = some (appDataFromGraphql payload) := by
    unfold Read
    rcases hs with hn | ⟨es, hes, hno⟩
    · simp [hd, hq, hn]
    · simp [hd, hq, hes, scan_of_no_sentinel es _ hno]
  refine ⟨hst, ?_, ?_, ?_⟩
  · intro hp
    rw [hst, hp]
    rfl
  · intro hne
    rcases hs with hn | ⟨es, hes, hno⟩
    · apply HasError_of_mem _ ⟨Severity.error, "Read: query failed", err.Text⟩ _ rfl
      unfold Read
      simp only [hd, hq, hn]
      simp [AddError, mem_appendOne]
    · have hes0 : es ≠ [] := by
        intro h0
        rw [h0] at hes
        exact hne hes
      obtain ⟨e, rest, rfl⟩ := List.exists_cons_of_ne_nil hes0
      apply HasError_of_mem _ (entryDiag e) _ rfl
      unfold Read
      simp only [hd, hq, hes, scan_of_no_sentinel (e :: rest) _ hno]
      simp [mem_report]
  · intro h0
    unfold Read
    simp [hd, hq, h0, Read.scan]

theorem read_failure_overwrites_state_witness :
    (Read rateLimitedClient demoState [] (some demoState)).State =
      some (appDataFromGraphql AppFragment.zero) ∧
    (Read rateLimitedClient demoState [] (some demoState)).State = some emptyState ∧
    HasError (Read rateLimitedClient demoState [] (some demoState)).Diagnostics = true ∧
    (Read emptyListClient demoState [] (some demoState)).State = some emptyState ∧
    (Read emptyListClient demoState [] (some demoState)).Diagnostics = Append [] [] :=
  have h := read_failure_overwrites_state rateLimitedClient demoState [] (some demoState)
    AppFragment.zero rateLimitedError rfl rfl
    (Or.inr ⟨[⟨"rate limited", "app"⟩], rfl, by decide⟩)
  have g := read_failure_overwrites_state emptyListClient demoState [] (some demoState)
    AppFragment.zero emptyListError rfl rfl
    (Or.inr ⟨[], rfl, by intro e he; cases he⟩)
  ⟨h.1, h.2.1 rfl, h.2.2.1 (by decide), g.2.1 rfl, g.2.2.2 rfl⟩

/-! ## Delete -/

/-- C5: whatever the remote delete-application call returns, `Delete` leaves
the absent state in the response; this holds next to the diagnostics it
reports: one per entry of an error list, one for an error that does not
decompose. -/
theorem delete_always_removes (r : GqlClient) (data : flyAppResourceData)
    (getDiags : Diagnostics) (st0 : Option flyAppResourceData) :
    (Delete r data getDiags st0).State = none ∧
    (∀ err es, r.DeleteAppMutation data.Name.Value = some err → err.AsList = some es →
      ∀ e ∈ es, entryDiag e ∈ (Delete r data getDiags st0).Diagnostics) ∧
    (∀ err, r.DeleteAppMutation data.Name.Value = some err → err.AsList = none →
      (⟨Severity.error, "Delete app failed", err.Text⟩ : Diagnostic) ∈
        (Delete r data getDiags st0).Diagnostics) := by
  refine ⟨rfl, ?_, ?_⟩
  · intro err es he hes e hmem
    unfold Delete
    simp only [he, hes]
    rw [mem_report]
    exact Or.inr ⟨e, hmem, rfl⟩
  · intro err he hn
    unfold Delete
    simp only [he, hn]
    simp [AddError, mem_appendOne]

end FlyApp
